import Mathlib

/-!
# manus-dl: a verification development of `main.go`

The program crawls the paginated listing of a fonds on `manus.iccu.sbn.it`,
collects the record identifiers of every listing page and downloads one TEI
file per identifier through a pool of eight workers.

The embedding is shallow.  Go strings are Lean `String`s, Go slices are
`List`s, a Go `map[string]bool` is an association list, and a run-time panic
(nil dereference, index out of range) is the `panicked` constructor of
`Outcome`.  Everything the program obtains from outside (HTTP responses, the
elements goquery selects in a document, the file system's answers) is a field
of `World`; the effects it has (log lines, progress increments, files,
submitted tasks, the exit status) are fields of the result records.  A file is
identified by the place its path resolves to from the working directory.
-/

namespace ManusDl

/-! ## Constants of `main.go` -/

def base : String := "https://manus.iccu.sbn.it"
def fondslist : String := "opac_ElencoSchedeDiUnFondo.php"
def itempage : String := "opac_SchedaScheda.php"
def interstitial : String := "Backoffice/XML/index_immediato.php"
def download : String := "Backoffice/XML/dl.php"

/-- The output directory, written as a literal at its three uses in `main.go`. -/
def dataDir : String := "./manus-data"

/-! ## Run-time outcomes -/

/-- Result of running a piece of Go code that may panic. -/
inductive Outcome (α : Type) where
  | returned (v : α)
  | panicked
  deriving DecidableEq, Repr

/-- Go slice indexing `xs[i]`: an index past the end panics. -/
def goIndex {α : Type} (xs : List α) (i : Nat) : Outcome α :=
  match xs[i]? with
  | some x => Outcome.returned x
  | none => Outcome.panicked

/-! ## `map[string]bool` -/

/-- A Go `map[string]bool`: its entries, at most one per key. -/
abbrev GoMap := List (String × Bool)

/-- The value of `make(map[string]bool, hint)`: no entries, whatever the capacity hint. -/
def GoMap.make (_hint : Nat) : GoMap := []

/-- The value of `len(m)`: the number of entries. -/
def GoMap.len (m : GoMap) : Nat := m.length

/-- The value of `m[k]`: the zero value `false` when `k` has no entry. -/
def GoMap.get (m : GoMap) (k : String) : Bool :=
  match m.lookup k with
  | some b => b
  | none => false

/-- The map after `m[k] = v`. -/
def GoMap.set (m : GoMap) (k : String) (v : Bool) : GoMap :=
  (k, v) :: m.filter (fun e => e.1 ≠ k)

/-! ## `unique` (main.go 34-46) -/

/-- The `for _, elem := range s` loop of `unique`, with the map and the slice as loop state. -/
def uniqueLoop : List String → GoMap → List String → List String
  | [], _, us => us
  | elem :: rest, seen, us =>
    if elem.length ≠ 0 then
      if !seen.get elem then
        uniqueLoop rest (seen.set elem true) (us ++ [elem])
      else
        uniqueLoop rest seen us
    else
      uniqueLoop rest seen us

/-- The function `unique`: `unique := make(map[string]bool, len(s))`,
`us := make([]string, len(unique))`, then the loop. -/
def unique (s : List String) : List String :=
  let seen : GoMap := GoMap.make s.length
  let us : List String := List.replicate seen.len ""
  uniqueLoop s seen us

/-! ## `strings.Split` with a one-character separator -/

/-- Splitting a character sequence at every occurrence of `sep`. -/
def splitChars (sep : Char) : List Char → List (List Char)
  | [] => [[]]
  | c :: cs =>
    if c = sep then
      [] :: splitChars sep cs
    else
      match splitChars sep cs with
      | [] => [[c]]
      | seg :: segs => (c :: seg) :: segs

/-- The value of `strings.Split(s, sep)` for a separator of one character
(the program only splits on `"="`). -/
def stringsSplit (s : String) (sep : Char) : List String :=
  (splitChars sep s.data).map String.mk

/-! ## The outside world -/

/-- An HTTP response: the bytes its body delivers and, when reading the body
breaks off, the read error that ends it. -/
structure Response where
  body : String
  readErr : Option String := none
  deriving DecidableEq, Repr

/-- The pair `(res, err)` returned by `http.Get` and `http.PostForm`: a
response with a nil error, or a nil response with an error. -/
inductive HttpResult where
  | ok (res : Response)
  | fail (err : String)
  deriving DecidableEq, Repr

/-- An element selected by goquery, reduced to its attributes. -/
structure Element where
  attrs : List (String × String)

/-- The pair returned by `Selection.Attr(name)` on one element. -/
def Element.attr (e : Element) (name : String) : String × Bool :=
  match e.attrs.lookup name with
  | some v => (v, true)
  | none => ("", false)

/-- The pair returned by `First().Attr(name)` on a selection: the empty string and
`false` when the selection is empty. -/
def firstAttr (sel : List Element) (name : String) : String × Bool :=
  match sel with
  | [] => ("", false)
  | e :: _ => e.attr name

/-- Everything the program reads from outside. -/
structure World where
  /-- Answer of `http.Get(url)`. -/
  httpGet : String → HttpResult
  /-- Answer of `http.PostForm(url, values)`. -/
  httpPostForm : String → List (String × List String) → HttpResult
  /-- Elements that `doc.Find(selector)` selects in the document parsed from a body,
  in document order. -/
  find : String → String → List Element
  /-- Error of `os.Create(path)` for a path not written as a directory, if any. -/
  createErr : String → Option String
  /-- When `some k`: writing to the file at this path fails after `k` bytes. -/
  writeFailsAfter : String → Option Nat
  /-- Whether `os.Stat("./manus-data")` reports that the directory does not exist. -/
  dataDirMissing : Bool

/-- The result of `goquery.NewDocumentFromReader(res.Body)`: the document (here the
body text it was parsed from) unless reading the body failed, in which case the
document is nil. -/
def newDocumentFromReader (res : Response) : Option String × Option String :=
  match res.readErr with
  | some e => (none, some e)
  | none => (some res.body, none)

/-! ## `getIds` (main.go 72-91) -/

/-- The identifier taken from one link target: `strings.Split(ix, "=")` indexed at 1. -/
def idOfHref (ix : String) : Outcome String :=
  goIndex (stringsSplit ix '=') 1

/-- The callback of `Each` run over the selected anchors, appending to `ids`. -/
def eachAnchor : List Element → List String → Outcome (List String)
  | [], ids => Outcome.returned ids
  | s :: rest, ids =>
    let ix := (s.attr "href").1
    match idOfHref ix with
    | Outcome.returned tok => eachAnchor rest (ids ++ [tok])
    | Outcome.panicked => Outcome.panicked

/-- What a call leaves behind: the lines it logged and how it ended. -/
structure Run (α : Type) where
  log : List String
  outcome : Outcome α

/-- The function `getIds`. -/
def getIds (w : World) (url : String) : Run (List String) :=
  match w.httpGet url with
  | HttpResult.fail err =>
    -- `log.Println(err)`, then `res.Body` with `res == nil`
    { log := [err], outcome := Outcome.panicked }
  | HttpResult.ok res =>
    match newDocumentFromReader res with
    | (none, err) =>
      -- `log.Println(err)`, then `doc.Find` with `doc == nil`
      { log := err.toList, outcome := Outcome.panicked }
    | (some doc, _) =>
      match eachAnchor (w.find doc "a.opac_linkNero") [] with
      | Outcome.returned ids => { log := [], outcome := Outcome.returned (unique ids) }
      | Outcome.panicked => { log := [], outcome := Outcome.panicked }

/-! ## `strconv.Atoi` (Go standard library, 64-bit `int`) -/

/-- The two error kinds of `strconv`: `ErrSyntax` and `ErrRange`. -/
inductive NumError where
  | invalid
  | outOfRange
  deriving DecidableEq, Repr

/-- The digit loop of `strconv.ParseUint(s, 10, 64)`: a character that is not a
decimal digit is a syntax error with value 0, a value above `2^64 - 1` is a range
error with value `2^64 - 1`. -/
def parseUintLoop : List Char → Nat → Nat × Option NumError
  | [], n => (n, none)
  | c :: cs, n =>
    if c.isDigit then
      let n1 := n * 10 + (c.toNat - 48)
      if n1 > 2 ^ 64 - 1 then (2 ^ 64 - 1, some NumError.outOfRange)
      else parseUintLoop cs n1
    else (0, some NumError.invalid)

/-- The function `strconv.ParseUint(s, 10, 64)`. -/
def parseUint (s : List Char) : Nat × Option NumError :=
  if s = [] then (0, some NumError.invalid) else parseUintLoop s 0

/-- The function `strconv.ParseInt(s, 10, 0)` with a 64-bit `int`: an optional
sign, then `ParseUint`; a syntax error gives 0, a magnitude out of range gives the
nearest bound together with a range error. -/
def parseInt (s : List Char) : Int × Option NumError :=
  match s with
  | [] => (0, some NumError.invalid)
  | c :: cs =>
    let neg : Bool := c = '-'
    let digits := if c = '+' ∨ c = '-' then cs else c :: cs
    match parseUint digits with
    | (_, some NumError.invalid) => (0, some NumError.invalid)
    | (un, _) =>
      if !neg && decide (un ≥ 2 ^ 63) then (2 ^ 63 - 1, some NumError.outOfRange)
      else if neg && decide (un > 2 ^ 63) then (-(2 ^ 63), some NumError.outOfRange)
      else (if neg then -(un : Int) else (un : Int), none)

/-- The function `strconv.Atoi(s)`: its fast path for short strings computes what
`ParseInt(s, 10, 0)` computes. -/
def atoi (s : String) : Int × Option NumError :=
  parseInt s.data

/-! ## The pagination pattern (main.go 58-59) -/

/-- Matching a literal at the head of the input; the rest of the input on success. -/
def expectLit : List Char → List Char → Option (List Char)
  | [], cs => some cs
  | _ :: _, [] => none
  | p :: ps, c :: cs => if p = c then expectLit ps cs else none

/-- The pattern `\d*` at the head of the input: the longest run of decimal digits
and the rest of the input. -/
def digitRun (cs : List Char) : List Char × List Char :=
  (cs.takeWhile Char.isDigit, cs.dropWhile Char.isDigit)

/-- The pattern `\d+` at the head of the input: as `\d*`, but the run may not be empty. -/
def digitRun1 (cs : List Char) : Option (List Char × List Char) :=
  if cs.takeWhile Char.isDigit = [] then none else some (digitRun cs)

/-- The pattern `\.?` at the head of the input: the dot when one is there. -/
def optDot (cs : List Char) : List Char × List Char :=
  match cs with
  | '.' :: rest => (['.'], rest)
  | _ => ([], cs)

/-- The text of a match with the given digit runs and optional dot. -/
def paginationText (d1 d2 dot d3 d4 : List Char) : List Char :=
  "Pagina ".data ++ d1 ++ " di ".data ++ (d2 ++ dot ++ d3) ++ " (occorrenze ".data ++ d4
    ++ ")".data

/-- A match of `Pagina (\d+) di (\d+\.?\d*) \(occorrenze (\d+)\)` that starts at the
head of the input: the matched text and the three groups.  Every repetition is
greedy; each is followed in the pattern by a character it cannot match itself, so
taking the longest run is the only way to match. -/
def matchHere (cs : List Char) : Option (List String) := do
  let r1 ← expectLit "Pagina ".data cs
  let n1 ← digitRun1 r1
  let r2 ← expectLit " di ".data n1.2
  let n2 ← digitRun1 r2
  let dot := optDot n2.2
  let n3 := digitRun dot.2
  let r3 ← expectLit " (occorrenze ".data n3.2
  let n4 ← digitRun1 r3
  let _ ← expectLit ")".data n4.2
  pure [String.mk (paginationText n1.1 n2.1 dot.1 n3.1 n4.1),
        String.mk n1.1, String.mk (n2.1 ++ dot.1 ++ n3.1), String.mk n4.1]

/-- The leftmost match in the input, tried at every start position from the left;
the empty list (Go's nil slice) when there is none. -/
def findSubmatchChars : List Char → List String
  | [] => []
  | c :: cs =>
    match matchHere (c :: cs) with
    | some r => r
    | none => findSubmatchChars cs

/-- The value of `regexp.FindStringSubmatch(body)` for the pagination pattern. -/
def findStringSubmatch (body : String) : List String :=
  findSubmatchChars body.data

/-! ## `getPages` (main.go 50-68) -/

/-- The function `getPages`: the error of a failed GET, or the two counts when the
pattern matches (the errors of both `Atoi` calls are dropped), or the error
`no results`.  The error of `ioutil.ReadAll` is dropped too: the body is whatever
was read.  A match has four entries, so `results[2]` and `results[3]` exist. -/
def getPages (w : World) (url : String) : Except String (Int × Int) :=
  match w.httpGet url with
  | HttpResult.fail err => Except.error err
  | HttpResult.ok resp =>
    let results := findStringSubmatch resp.body
    if results.length > 0 then
      let pages := (atoi (results.getD 2 "")).1
      let items := (atoi (results.getD 3 "")).1
      Except.ok (pages, items)
    else
      Except.error "no results"

/-! ## `downloadXML` (main.go 94-146) -/

/-- One step of resolving a path, component by component, with the components
resolved so far as a stack (last one first): an empty component and `.` change
nothing, `..` leaves the directory entered last (or climbs above the working
directory when none is left), any other name enters it. -/
def resolveStep (stack : List String) (c : String) : List String :=
  if c = "" ∨ c = "." then stack
  else if c = ".." then
    match stack with
    | [] => [".."]
    | top :: below => if top = ".." then ".." :: top :: below else below
  else c :: stack

/-- The place a path names, as the operating system resolves it from the working
directory: the names on the way down, after `.`, `..` and repeated `/` are
resolved.  Every path the program opens is relative (`./manus-data/...`). -/
def resolvePath (path : String) : List String :=
  ((stringsSplit path '/').foldl resolveStep []).reverse

/-- Whether the path is written as a directory: it ends in `/`, `.` or `..`. -/
def namesDirectory (path : String) : Bool :=
  match (stringsSplit path '/').getLast? with
  | some c => decide (c = "" ∨ c = "." ∨ c = "..")
  | none => true

/-- The error of `os.Create(path)`, if any: a path written as a directory cannot be
opened for writing; otherwise the world decides (missing directory, permissions,
an existing directory of that name). -/
def osCreate (w : World) (path : String) : Option String :=
  if namesDirectory path then some ("open " ++ path ++ ": is a directory")
  else w.createErr path

/-- What download tasks act on: the log, the progress bar's count of `Increment`
calls, and the contents of the files.  A file is identified by the place its path
resolves to, so two spellings of one path are one file; the model has no symbolic
or hard links. -/
structure TaskState where
  log : List String
  increments : Nat
  files : List String → Option String

/-- The file system after the file at the place `key` received `content`. -/
def writeFile (files : List String → Option String) (key : List String) (content : String) :
    List String → Option String :=
  fun k => if k = key then some content else files k

/-- The call `io.Copy(out, res.Body)`: what reaches the file and the error, if any.
A failing write cuts the data short; otherwise everything the body delivers is
written and the body's read error, if any, is the result. -/
def ioCopy (w : World) (path : String) (res : Response) : String × Option String :=
  match w.writeFailsAfter path with
  | some k =>
    if k < res.body.length then (res.body.take k, some "write error")
    else (res.body, res.readErr)
  | none => (res.body, res.readErr)

/-- One execution of the task returned by `downloadXML(item, bar)`. -/
def downloadXML (w : World) (item : String) (st : TaskState) : TaskState :=
  let input := base ++ "/" ++ itempage ++ "?ID=" ++ item
  match w.httpGet input with
  | HttpResult.fail err => { st with log := st.log ++ [err] }
  | HttpResult.ok res =>
    match newDocumentFromReader res with
    | (none, err) => { st with log := st.log ++ err.toList }
    | (some doc, _) =>
      let filename := (firstAttr (w.find doc "input[name=filename]") "value").1
      let autore := (firstAttr (w.find doc "input[name=autore]") "value").1
      if filename ≠ "" then
        match w.httpPostForm (base ++ "/" ++ interstitial)
            [("op", ["manos"]), ("cnmdManos", [item]), ("autore", [autore]),
             ("filename", [filename])] with
        | HttpResult.fail err => { st with log := st.log ++ [err] }
        | HttpResult.ok res2 =>
          let path := dataDir ++ "/" ++ filename
          match osCreate w path with
          | some err => { st with log := st.log ++ [err] }
          | none =>
            match ioCopy w path res2 with
            | (written, some err) =>
              { st with log := st.log ++ [err],
                        files := writeFile st.files (resolvePath path) written }
            | (written, none) =>
              { st with increments := st.increments + 1,
                        files := writeFile st.files (resolvePath path) written }
      else
        { st with log := st.log ++ ["error on item: " ++ item],
                  increments := st.increments + 1 }

/-! ## `main` (main.go 148-186) -/

/-- How the process ends: `os.Exit(code)`, a return from `main` (status 0), or a
panic in the main goroutine (status 2). -/
inductive Ending where
  | exited (code : Int)
  | finished
  | crashed
  deriving DecidableEq, Repr

/-- The exit status of the process. -/
def Ending.status : Ending → Int
  | Ending.exited code => code
  | Ending.finished => 0
  | Ending.crashed => 2

/-- What `main` does, as far as the main goroutine goes: the log, the lines printed,
whether the output directory was made, the page indices on which `getIds` was
called, the items of the submitted download tasks (both in order), the total the
progress bar was started with, and how the process ends. -/
structure MainResult where
  log : List String
  printed : List String
  madeDir : Bool
  pagesFetched : List Int
  submitted : List String
  barTotal : Option Int
  ending : Ending

/-- The URL of listing page `i` of the fonds. -/
def pageURL (fonds i : Int) : String :=
  base ++ "/" ++ fondslist ++ "?ID=" ++ toString fonds ++ "&page=" ++ toString i

/-- The URL of the fonds. -/
def fondoURL (fonds : Int) : String :=
  base ++ "/" ++ fondslist ++ "?ID=" ++ toString fonds

/-- The loop `for i := 0; i < p; i++` of `main`, by the number of iterations still
to run (`p - i`, none when `p ≤ i`).  A panic of `getIds` ends the process. -/
def pageLoop (w : World) (fonds : Int) : Nat → Int → MainResult → MainResult
  | 0, _, r => r
  | n + 1, i, r =>
    let run := getIds w (pageURL fonds i)
    let r1 := { r with log := r.log ++ run.log, pagesFetched := r.pagesFetched ++ [i] }
    match run.outcome with
    | Outcome.panicked => { r1 with ending := Ending.crashed }
    | Outcome.returned ids =>
      pageLoop w fonds n (i + 1) { r1 with submitted := r1.submitted ++ ids }

/-- The function `main` for the value `fonds` of the flag `-fonds-id`.  The output
of `flag.PrintDefaults()` is the one line `usage`; after the loop, `wp.StopWait()`
and `bar.Finish()` end the run. -/
def main (w : World) (fonds : Int) : MainResult :=
  let r0 : MainResult :=
    { log := [], printed := [], madeDir := false, pagesFetched := [], submitted := [],
      barTotal := none, ending := Ending.finished }
  if fonds = 0 then
    { r0 with printed := ["usage"], ending := Ending.exited 0 }
  else
    let r1 := { r0 with madeDir := w.dataDirMissing }
    match getPages w (fondoURL fonds) with
    | Except.error err => { r1 with log := [err], ending := Ending.exited 0 }
    | Except.ok (p, i) =>
      let header := "# fonds: " ++ toString fonds ++ " — pages: " ++ toString p
        ++ " — items: " ++ toString i ++ "\n"
      pageLoop w fonds p.toNat 0 { r1 with printed := [header], barTotal := some i }

/-! ## Specification-side definitions -/

/-- The elements of a list at their first occurrence, in the order of those
occurrences: the head stays, later copies of it go. -/
def firstOccurrences : List String → List String
  | [] => []
  | x :: xs => x :: (firstOccurrences xs).filter (fun y => y ≠ x)

/-- The text after the first occurrence of `sep`; empty when there is none. -/
def afterFirst (sep : Char) (cs : List Char) : List Char :=
  (cs.dropWhile (fun c => c ≠ sep)).drop 1

/-- The value after the first `=` of a link target, as the specification words it. -/
def valueAfterFirstEq (href : String) : String :=
  String.mk (afterFirst '=' href.data)

/-- A sequence of decimal digits. -/
def AllDigits (d : List Char) : Prop := ∀ c ∈ d, c.isDigit = true

/-- The body contains a match of the pagination pattern
`Pagina (\d+) di (\d+\.?\d*) \(occorrenze (\d+)\)`: it is some text, then a text of
the pattern's language, then some text. -/
def PaginationMatch (body : String) : Prop :=
  ∃ pre d1 d2 dot d3 d4 post : List Char,
    body.data = pre ++ paginationText d1 d2 dot d3 d4 ++ post ∧
    d1 ≠ [] ∧ AllDigits d1 ∧ d2 ≠ [] ∧ AllDigits d2 ∧ (dot = [] ∨ dot = ['.']) ∧
    AllDigits d3 ∧ d4 ≠ [] ∧ AllDigits d4

/-! ## Sample worlds -/

/-- An anchor with the given link target. -/
def anchor (href : String) : Element := { attrs := [("class", "opac_linkNero"), ("href", href)] }

/-- An `input` element with the given name and value. -/
def inputField (name value : String) : Element :=
  { attrs := [("name", name), ("value", value)] }

/-- A world in which every request is answered with the same body, every page has
no elements of interest, and the file system never fails. -/
def servingWorld (body : String) : World :=
  { httpGet := fun _ => HttpResult.ok { body := body }
    httpPostForm := fun _ _ => HttpResult.ok { body := body }
    find := fun _ _ => []
    createErr := fun _ => none
    writeFailsAfter := fun _ => none
    dataDirMissing := true }

/-- A world without network: every request fails. -/
def offlineWorld : World :=
  { httpGet := fun _ => HttpResult.fail "dial tcp: connection refused"
    httpPostForm := fun _ _ => HttpResult.fail "dial tcp: connection refused"
    find := fun _ _ => []
    createErr := fun _ => none
    writeFailsAfter := fun _ => none
    dataDirMissing := true }

/-- A small site.  Fonds 485 has two listing pages, both served; they share the
identifier 8, and the first repeats 7 and has a link without a value.  Fonds 486
has three listing pages, of which the middle one cannot be fetched.  Record 7 has the
file `a.xml`, record 8 has no filename, the detail page of record 9 cannot be
fetched, and the interstitial request for record 6 (file `b.xml`) is refused. -/
def site : World :=
  { httpGet := fun url =>
      if url = fondoURL 485 then HttpResult.ok { body := "Pagina 1 di 2 (occorrenze 4)" }
      else if url = pageURL 485 0 then HttpResult.ok { body := "first" }
      else if url = pageURL 485 1 then HttpResult.ok { body := "second" }
      else if url = fondoURL 486 then HttpResult.ok { body := "Pagina 1 di 3 (occorrenze 5)" }
      else if url = pageURL 486 0 then HttpResult.ok { body := "first" }
      else if url = pageURL 486 2 then HttpResult.ok { body := "second" }
      else if url = base ++ "/" ++ itempage ++ "?ID=7" then HttpResult.ok { body := "seven" }
      else if url = base ++ "/" ++ itempage ++ "?ID=8" then HttpResult.ok { body := "eight" }
      else if url = base ++ "/" ++ itempage ++ "?ID=6" then HttpResult.ok { body := "six" }
      else HttpResult.fail "dial tcp: connection refused"
    httpPostForm := fun _ form =>
      if form.lookup "filename" = some ["a.xml"] then HttpResult.ok { body := "<TEI>7</TEI>" }
      else HttpResult.fail "dial tcp: connection refused"
    find := fun doc sel =>
      if sel = "a.opac_linkNero" then
        if doc = "first" then
          [anchor "opac_SchedaScheda.php?ID=7", anchor "opac_SchedaScheda.php?ID=",
           anchor "opac_SchedaScheda.php?ID=7", anchor "opac_SchedaScheda.php?ID=8"]
        else if doc = "second" then
          [anchor "opac_SchedaScheda.php?ID=8", anchor "opac_SchedaScheda.php?ID=9"]
        else []
      else if sel = "input[name=filename]" then
        if doc = "seven" then [inputField "filename" "a.xml"]
        else if doc = "eight" then [inputField "filename" ""]
        else if doc = "six" then [inputField "filename" "b.xml"]
        else []
      else if sel = "input[name=autore]" then
        if doc = "seven" then [inputField "autore" "Dante"] else []
      else []
    createErr := fun _ => none
    writeFailsAfter := fun _ => none
    dataDirMissing := true }

/-- A world in which every response body breaks off with a read error. -/
def brokenBodyWorld : World :=
  { httpGet := fun _ => HttpResult.ok { body := "", readErr := some "unexpected EOF" }
    httpPostForm := fun _ _ => HttpResult.ok { body := "", readErr := some "unexpected EOF" }
    find := fun _ _ => []
    createErr := fun _ => none
    writeFailsAfter := fun _ => none
    dataDirMissing := true }

/-- The state before any task ran: nothing logged, no increment, no file. -/
def freshState : TaskState := { log := [], increments := 0, files := fun _ => none }

/-! ## Facts about `unique` -/

theorem length_ne_zero_iff (s : String) : s.length ≠ 0 ↔ s ≠ "" := by
  constructor
  · intro h e
    subst e
    exact h rfl
  · intro h e
    apply h
    have hd : s.data = [] := List.length_eq_zero.mp e
    exact String.ext hd

theorem lookup_filter_ne (m : GoMap) (k x : String) (h : x ≠ k) :
    (m.filter (fun e => e.1 ≠ k)).lookup x = m.lookup x := by
  induction m with
  | nil => rfl
  | cons e m ih =>
    obtain ⟨a, b⟩ := e
    by_cases hak : a = k
    · have hxa : (x == a) = false := by
        rw [hak]; exact beq_false_of_ne h
      have hf : decide ((a, b).1 ≠ k) = false := by simp [hak]
      rw [List.filter_cons_of_neg (by simp [hf]), ih, List.lookup_cons, hxa]
    · have hf : (fun e : String × Bool => decide (e.1 ≠ k)) (a, b) = true := by simp [hak]
      rw [@List.filter_cons_of_pos _ (fun e : String × Bool => decide (e.1 ≠ k)) (a, b) m hf,
        List.lookup_cons, List.lookup_cons, ih]

theorem get_set_true (m : GoMap) (k x : String) :
    (m.set k true).get x = (decide (x = k) || m.get x) := by
  by_cases h : x = k
  · subst h
    simp [GoMap.set, GoMap.get, List.lookup_cons]
  · have hxk : (x == k) = false := beq_false_of_ne h
    have hd : decide (x = k) = false := by simp [h]
    unfold GoMap.set GoMap.get
    rw [List.lookup_cons, hxk, lookup_filter_ne m k x h, hd, Bool.false_or]

theorem uniqueLoop_skip (rest : List String) (seen : GoMap) (us : List String) :
    uniqueLoop ("" :: rest) seen us = uniqueLoop rest seen us := by
  simp [uniqueLoop]

theorem uniqueLoop_seen (e : String) (rest : List String) (seen : GoMap) (us : List String)
    (hs : seen.get e = true) :
    uniqueLoop (e :: rest) seen us = uniqueLoop rest seen us := by
  simp [uniqueLoop, hs]

theorem uniqueLoop_new (e : String) (rest : List String) (seen : GoMap) (us : List String)
    (he : e ≠ "") (hs : seen.get e = false) :
    uniqueLoop (e :: rest) seen us = uniqueLoop rest (seen.set e true) (us ++ [e]) := by
  have hlen : e.length ≠ 0 := (length_ne_zero_iff e).mpr he
  rw [uniqueLoop, if_pos hlen, hs]
  rfl

theorem uniqueLoop_eq (s : List String) (seen : GoMap) (us : List String) :
    uniqueLoop s seen us =
      us ++ (firstOccurrences (s.filter (fun x => x ≠ ""))).filter (fun x => !seen.get x) := by
  induction s generalizing seen us with
  | nil => simp [uniqueLoop, firstOccurrences]
  | cons e rest ih =>
    by_cases he : e = ""
    · subst he
      rw [uniqueLoop_skip, ih, List.filter_cons_of_neg (by simp)]
    · rw [List.filter_cons_of_pos (by simpa using he), firstOccurrences]
      by_cases hs : seen.get e = true
      · rw [uniqueLoop_seen e rest seen us hs, ih, List.filter_cons_of_neg (by simp [hs]),
          List.filter_filter]
        congr 1
        apply List.filter_congr
        intro x _
        by_cases hx : x = e
        · subst hx; simp [hs]
        · simp [hx]
      · have hs2 : seen.get e = false := by simpa using hs
        rw [uniqueLoop_new e rest seen us he hs2, ih, List.filter_cons_of_pos (by simp [hs2]),
          List.filter_filter, List.append_assoc, List.singleton_append]
        congr 2
        apply List.filter_congr
        intro x _
        rw [get_set_true]
        by_cases hx : x = e
        · subst hx; simp
        · simp [hx]

theorem unique_eq (s : List String) :
    unique s = firstOccurrences (s.filter (fun x => x ≠ "")) := by
  simp [unique, GoMap.make, GoMap.len, uniqueLoop_eq, GoMap.get]

theorem mem_firstOccurrences (l : List String) (x : String) :
    x ∈ firstOccurrences l ↔ x ∈ l := by
  induction l with
  | nil => simp [firstOccurrences]
  | cons a l ih =>
    by_cases hx : x = a
    · simp [firstOccurrences, hx]
    · simp [firstOccurrences, hx, ih]

theorem nodup_firstOccurrences (l : List String) : (firstOccurrences l).Nodup := by
  induction l with
  | nil => simp [firstOccurrences]
  | cons a l ih =>
    simp only [firstOccurrences, List.nodup_cons]
    exact ⟨by simp, ih.filter _⟩

theorem sublist_firstOccurrences (l : List String) : (firstOccurrences l).Sublist l := by
  induction l with
  | nil => simp [firstOccurrences]
  | cons a l ih =>
    simp only [firstOccurrences]
    exact List.Sublist.cons₂ a ((List.filter_sublist _).trans ih)

theorem nodup_unique (s : List String) : (unique s).Nodup := by
  rw [unique_eq]; exact nodup_firstOccurrences _

theorem mem_unique (s : List String) (x : String) : x ∈ unique s ↔ x ∈ s ∧ x ≠ "" := by
  rw [unique_eq, mem_firstOccurrences]; simp

theorem pairwise_firstOccurrences (l : List String) :
    (firstOccurrences l).Pairwise (fun x y => l.indexOf x < l.indexOf y) := by
  induction l with
  | nil => simp [firstOccurrences]
  | cons a l ih =>
    rw [firstOccurrences, List.pairwise_cons]
    constructor
    · intro y hy
      have hya : y ≠ a := by simpa using (List.mem_filter.mp hy).2
      rw [List.indexOf_cons_self, List.indexOf_cons_ne l (Ne.symm hya)]
      exact Nat.succ_pos _
    · refine List.Pairwise.imp_of_mem ?_ (ih.filter _)
      intro x y hx hy hxy
      have hxa : x ≠ a := by simpa using (List.mem_filter.mp hx).2
      have hya : y ≠ a := by simpa using (List.mem_filter.mp hy).2
      rw [List.indexOf_cons_ne l (Ne.symm hxa), List.indexOf_cons_ne l (Ne.symm hya)]
      exact Nat.succ_lt_succ hxy

theorem indexOf_filter_lt (p : String → Bool) (l : List String) (x y : String)
    (hx : p x = true) (hy : p y = true)
    (h : (l.filter p).indexOf x < (l.filter p).indexOf y) : l.indexOf x < l.indexOf y := by
  induction l with
  | nil => simp at h
  | cons a l ih =>
    by_cases hpa : p a = true
    · rw [List.filter_cons_of_pos hpa] at h
      by_cases hxa : x = a
      · subst hxa
        rw [List.indexOf_cons_self] at h ⊢
        by_cases hyx : y = x
        · subst hyx
          rw [List.indexOf_cons_self] at h
          exact absurd h (lt_irrefl 0)
        · rw [List.indexOf_cons_ne l (Ne.symm hyx)]
          exact Nat.succ_pos _
      · rw [List.indexOf_cons_ne _ (Ne.symm hxa)] at h ⊢
        by_cases hya : y = a
        · subst hya
          rw [List.indexOf_cons_self] at h
          exact absurd h (Nat.not_lt_zero _)
        · rw [List.indexOf_cons_ne _ (Ne.symm hya)] at h ⊢
          exact Nat.succ_lt_succ (ih (Nat.lt_of_succ_lt_succ h))
    · rw [List.filter_cons_of_neg hpa] at h
      have hxa : x ≠ a := fun e => hpa (e ▸ hx)
      have hya : y ≠ a := fun e => hpa (e ▸ hy)
      rw [List.indexOf_cons_ne _ (Ne.symm hxa), List.indexOf_cons_ne _ (Ne.symm hya)]
      exact Nat.succ_lt_succ (ih h)

theorem pairwise_unique (s : List String) :
    (unique s).Pairwise (fun x y => s.indexOf x < s.indexOf y) := by
  rw [unique_eq]
  refine List.Pairwise.imp_of_mem ?_ (pairwise_firstOccurrences _)
  intro x y hx hy hxy
  have hx2 := (List.mem_filter.mp ((mem_firstOccurrences _ _).mp hx)).2
  have hy2 := (List.mem_filter.mp ((mem_firstOccurrences _ _).mp hy)).2
  exact indexOf_filter_lt _ s x y hx2 hy2 hxy

/-! ## Facts about `strings.Split` and `getIds` -/

theorem splitChars_of_not_mem (sep : Char) (cs : List Char) (h : sep ∉ cs) :
    splitChars sep cs = [cs] := by
  induction cs with
  | nil => rfl
  | cons c cs ih =>
    have hc : c ≠ sep := fun e => h (by simp [e])
    have hcs : sep ∉ cs := fun e => h (List.mem_cons_of_mem _ e)
    rw [splitChars, if_neg hc, ih hcs]

theorem splitChars_of_mem (sep : Char) (cs : List Char) (h : sep ∈ cs) :
    splitChars sep cs =
      cs.takeWhile (fun c => c ≠ sep) :: splitChars sep (afterFirst sep cs) := by
  induction cs with
  | nil => simp at h
  | cons c cs ih =>
    by_cases hc : c = sep
    · subst hc
      simp [splitChars, afterFirst, List.takeWhile, List.dropWhile]
    · have hcs : sep ∈ cs := by
        rcases List.mem_cons.mp h with e | e
        · exact absurd e.symm hc
        · exact e
      have hd : decide (c ≠ sep) = true := by simp [hc]
      rw [splitChars, if_neg hc, ih hcs]
      simp [afterFirst, List.takeWhile, List.dropWhile, hd]

theorem splitChars_get_one (sep : Char) (cs : List Char) (h : sep ∈ cs) :
    (splitChars sep cs)[1]? = some ((afterFirst sep cs).takeWhile (fun c => c ≠ sep)) := by
  rw [splitChars_of_mem sep cs h]
  by_cases h2 : sep ∈ afterFirst sep cs
  · rw [splitChars_of_mem sep _ h2]; simp
  · rw [splitChars_of_not_mem sep _ h2]
    have : (afterFirst sep cs).takeWhile (fun c => c ≠ sep) = afterFirst sep cs := by
      rw [List.takeWhile_eq_self_iff]
      intro c hc
      have : c ≠ sep := fun e => h2 (e ▸ hc)
      simpa using this
    rw [this]; simp

theorem idOfHref_of_mem (href : String) (h : '=' ∈ href.data) :
    idOfHref href =
      Outcome.returned (String.mk ((afterFirst '=' href.data).takeWhile (fun c => c ≠ '='))) := by
  unfold idOfHref stringsSplit goIndex
  rw [List.getElem?_map, splitChars_get_one '=' _ h]
  rfl

theorem idOfHref_of_not_mem (href : String) (h : '=' ∉ href.data) :
    idOfHref href = Outcome.panicked := by
  unfold idOfHref stringsSplit goIndex
  rw [splitChars_of_not_mem '=' _ h]
  rfl

theorem eachAnchor_of_mem (els : List Element) (acc : List String)
    (h : ∀ a ∈ els, '=' ∈ (a.attr "href").1.data) :
    ∃ toks, eachAnchor els acc = Outcome.returned (acc ++ toks) := by
  induction els generalizing acc with
  | nil => exact ⟨[], by simp [eachAnchor]⟩
  | cons a els ih =>
    have ha := h a (List.mem_cons_self _ _)
    obtain ⟨toks, ht⟩ := ih (acc ++ [String.mk ((afterFirst '=' (a.attr "href").1.data).takeWhile
      (fun c => c ≠ '='))]) (fun b hb => h b (List.mem_cons_of_mem _ hb))
    refine ⟨String.mk ((afterFirst '=' (a.attr "href").1.data).takeWhile
      (fun c => c ≠ '=')) :: toks, ?_⟩
    simp only [eachAnchor, idOfHref_of_mem _ ha]
    rw [ht]
    simp

/-! ## Facts about the pagination pattern -/

theorem expectLit_eq_some (p cs r : List Char) : expectLit p cs = some r ↔ cs = p ++ r := by
  induction p generalizing cs with
  | nil => simp [expectLit, eq_comm]
  | cons a p ih =>
    cases cs with
    | nil => simp [expectLit]
    | cons c cs =>
      by_cases hac : a = c
      · subst hac
        simp [expectLit, ih]
      · have : ¬ c = a := fun e => hac e.symm
        simp [expectLit, hac, this]

theorem allDigits_takeWhile (cs : List Char) : AllDigits (cs.takeWhile Char.isDigit) := by
  intro c hc
  exact List.mem_takeWhile_imp hc

theorem digitRun_append (d rest : List Char) (hd : AllDigits d)
    (hrest : ∀ c, rest.head? = some c → c.isDigit = false) :
    digitRun (d ++ rest) = (d, rest) := by
  induction d with
  | nil =>
    cases rest with
    | nil => rfl
    | cons c rest =>
      have := hrest c rfl
      simp [digitRun, List.takeWhile, List.dropWhile, this]
  | cons a d ih =>
    have ha : a.isDigit = true := hd a (List.mem_cons_self _ _)
    have ih2 := ih (fun c hc => hd c (List.mem_cons_of_mem _ hc))
    simp only [digitRun, Prod.mk.injEq] at ih2
    simp [digitRun, List.takeWhile, List.dropWhile, ha, ih2.1, ih2.2]

theorem digitRun_eq (cs : List Char) : cs = (digitRun cs).1 ++ (digitRun cs).2 := by
  simp [digitRun, List.takeWhile_append_dropWhile]

theorem digitRun1_eq_some (cs : List Char) (n : List Char × List Char) :
    digitRun1 cs = some n ↔ n = digitRun cs ∧ (digitRun cs).1 ≠ [] := by
  unfold digitRun1
  by_cases h : cs.takeWhile Char.isDigit = []
  · simp [h, digitRun]
  · simp [h, digitRun, eq_comm]

theorem optDot_eq (cs : List Char) :
    cs = (optDot cs).1 ++ (optDot cs).2 ∧ ((optDot cs).1 = [] ∨ (optDot cs).1 = ['.']) := by
  unfold optDot
  split <;> simp

theorem matchHere_sound (cs : List Char) (r : List String) (h : matchHere cs = some r) :
    ∃ d1 d2 dot d3 d4 post : List Char,
      cs = paginationText d1 d2 dot d3 d4 ++ post ∧
      d1 ≠ [] ∧ AllDigits d1 ∧ d2 ≠ [] ∧ AllDigits d2 ∧ (dot = [] ∨ dot = ['.']) ∧
      AllDigits d3 ∧ d4 ≠ [] ∧ AllDigits d4 ∧
      r = [String.mk (paginationText d1 d2 dot d3 d4), String.mk d1,
           String.mk (d2 ++ dot ++ d3), String.mk d4] := by
  simp only [matchHere, bind, Option.bind_eq_some, pure] at h
  obtain ⟨r1, h1, n1, hn1, r2, h2, n2, hn2, r3, h3, n4, hn4, r5, h5, hr⟩ := h
  rw [expectLit_eq_some] at h1 h2 h3 h5
  rw [digitRun1_eq_some] at hn1 hn2 hn4
  obtain ⟨e1, ne1⟩ := hn1
  obtain ⟨e2, ne2⟩ := hn2
  obtain ⟨e4, ne4⟩ := hn4
  obtain ⟨hdot, hdot2⟩ := optDot_eq n2.2
  have k3 := digitRun_eq (optDot n2.2).2
  have a3 := allDigits_takeWhile (optDot n2.2).2
  change AllDigits (digitRun (optDot n2.2).2).1 at a3
  generalize (optDot n2.2).1 = dot at hdot hdot2 hr
  generalize digitRun (optDot n2.2).2 = n3 at k3 a3 h3 hr
  generalize (optDot n2.2).2 = u at hdot k3
  have k1 := digitRun_eq r1
  have k2 := digitRun_eq r2
  have k4 := digitRun_eq r3
  rw [← e1] at k1 ne1
  rw [← e2] at k2 ne2
  rw [← e4] at k4 ne4
  have a1 : AllDigits n1.1 := by rw [e1]; exact allDigits_takeWhile _
  have a2 : AllDigits n2.1 := by rw [e2]; exact allDigits_takeWhile _
  have a4 : AllDigits n4.1 := by rw [e4]; exact allDigits_takeWhile _
  refine ⟨n1.1, n2.1, dot, n3.1, n4.1, r5, ?_, ne1, a1, ne2, a2, hdot2, a3, ne4, a4,
    (Option.some.inj hr).symm⟩
  rw [h1, k1, h2, k2, hdot, k3, h3, k4, h5]
  simp [paginationText, List.append_assoc]

theorem digitRun1_append (d rest : List Char) (hne : d ≠ []) (hd : AllDigits d)
    (hrest : ∀ c, rest.head? = some c → c.isDigit = false) :
    digitRun1 (d ++ rest) = some (d, rest) := by
  have h := digitRun_append d rest hd hrest
  rw [digitRun1_eq_some, h]
  exact ⟨rfl, hne⟩

theorem expectLit_append (p r : List Char) : expectLit p (p ++ r) = some r :=
  (expectLit_eq_some p (p ++ r) r).mpr rfl

theorem matchHere_complete (d1 d2 dot d3 d4 post : List Char)
    (h1 : d1 ≠ []) (a1 : AllDigits d1) (h2 : d2 ≠ []) (a2 : AllDigits d2)
    (hdot : dot = [] ∨ dot = ['.']) (a3 : AllDigits d3) (h4 : d4 ≠ []) (a4 : AllDigits d4) :
    matchHere (paginationText d1 d2 dot d3 d4 ++ post) =
      some [String.mk (paginationText d1 d2 dot d3 d4), String.mk d1,
            String.mk (d2 ++ dot ++ d3), String.mk d4] := by
  -- the input, cut after each piece of the pattern
  let t5 : List Char := ")".data ++ post
  let t4 : List Char := " (occorrenze ".data ++ (d4 ++ t5)
  let t2 : List Char := " di ".data ++ (d2 ++ (dot ++ (d3 ++ t4)))
  have hin : paginationText d1 d2 dot d3 d4 ++ post = "Pagina ".data ++ (d1 ++ t2) := by
    simp [paginationText, t2, t4, t5, List.append_assoc]
  have s1 : digitRun1 (d1 ++ t2) = some (d1, t2) :=
    digitRun1_append d1 t2 h1 a1 (by intro c hc; cases hc; rfl)
  have s4 : digitRun1 (d4 ++ t5) = some (d4, t5) :=
    digitRun1_append d4 t5 h4 a4 (by intro c hc; cases hc; rfl)
  have s3 : digitRun (d3 ++ t4) = (d3, t4) :=
    digitRun_append d3 t4 a3 (by intro c hc; cases hc; rfl)
  rcases hdot with hd | hd
  · subst hd
    have a23 : AllDigits (d2 ++ d3) := by
      intro c hc
      rcases List.mem_append.mp hc with h | h
      · exact a2 c h
      · exact a3 c h
    have s2 : digitRun1 (d2 ++ ([] ++ (d3 ++ t4))) = some (d2 ++ d3, t4) := by
      have := digitRun1_append (d2 ++ d3) t4 (by simp [h2]) a23 (by intro c hc; cases hc; rfl)
      simpa [List.append_assoc] using this
    have s0 : digitRun t4 = ([], t4) := digitRun_append [] t4 (by intro c hc; cases hc)
      (by intro c hc; cases hc; rfl)
    have sd : optDot t4 = ([], t4) := rfl
    rw [hin]
    simp only [matchHere, bind, Option.bind, pure, expectLit_append, s1, t2, s2, sd, s0]
    simp only [t4, expectLit_append, s4, t5]
    simp [paginationText, List.append_assoc]
  · subst hd
    have s2 : digitRun1 (d2 ++ (['.'] ++ (d3 ++ t4))) = some (d2, ['.'] ++ (d3 ++ t4)) :=
      digitRun1_append d2 _ h2 a2 (by intro c hc; cases hc; rfl)
    have sd : optDot (['.'] ++ (d3 ++ t4)) = (['.'], d3 ++ t4) := rfl
    rw [hin]
    simp only [matchHere, bind, Option.bind, pure, expectLit_append, s1, t2, s2, sd, s3]
    simp only [t4, expectLit_append, s4, t5]

theorem matchHere_length (cs : List Char) (r : List String) (h : matchHere cs = some r) :
    r.length = 4 := by
  obtain ⟨d1, d2, dot, d3, d4, post, -, -, -, -, -, -, -, -, -, hr⟩ := matchHere_sound cs r h
  rw [hr]; rfl

theorem findSubmatchChars_of_matchHere (cs : List Char) (r : List String)
    (h : matchHere cs = some r) : findSubmatchChars cs = r := by
  cases cs with
  | nil => exact absurd h (by simp [matchHere, expectLit])
  | cons c cs => simp [findSubmatchChars, h]

theorem findSubmatchChars_append (pre suf : List Char) (r : List String)
    (h : matchHere suf = some r) : findSubmatchChars (pre ++ suf) ≠ [] := by
  induction pre with
  | nil =>
    rw [List.nil_append, findSubmatchChars_of_matchHere suf r h]
    intro e
    have := matchHere_length suf r h
    rw [e] at this
    cases this
  | cons a pre ih =>
    rw [List.cons_append, findSubmatchChars]
    cases hm : matchHere (a :: (pre ++ suf)) with
    | none => exact ih
    | some r2 =>
      intro e
      have := matchHere_length _ r2 hm
      simp only at e
      rw [e] at this
      cases this

theorem findSubmatchChars_found (cs : List Char) (h : findSubmatchChars cs ≠ []) :
    ∃ pre suf, cs = pre ++ suf ∧ matchHere suf = some (findSubmatchChars cs) := by
  induction cs with
  | nil => exact absurd rfl h
  | cons c cs ih =>
    cases hm : matchHere (c :: cs) with
    | some r =>
      refine ⟨[], c :: cs, rfl, ?_⟩
      rw [findSubmatchChars_of_matchHere _ r hm, hm]
    | none =>
      have e : findSubmatchChars (c :: cs) = findSubmatchChars cs := by
        simp [findSubmatchChars, hm]
      rw [e] at h ⊢
      obtain ⟨pre, suf, hcs, hs⟩ := ih h
      exact ⟨c :: pre, suf, by rw [hcs]; rfl, hs⟩

theorem paginationMatch_iff (body : String) :
    PaginationMatch body ↔ findStringSubmatch body ≠ [] := by
  constructor
  · rintro ⟨pre, d1, d2, dot, d3, d4, post, hb, h1, a1, h2, a2, hdot, a3, h4, a4⟩
    unfold findStringSubmatch
    rw [hb, List.append_assoc]
    exact findSubmatchChars_append pre _ _
      (matchHere_complete d1 d2 dot d3 d4 post h1 a1 h2 a2 hdot a3 h4 a4)
  · intro h
    obtain ⟨pre, suf, hcs, hs⟩ := findSubmatchChars_found body.data h
    obtain ⟨d1, d2, dot, d3, d4, post, hsuf, h1, a1, h2, a2, hdot, a3, h4, a4, -⟩ :=
      matchHere_sound suf _ hs
    exact ⟨pre, d1, d2, dot, d3, d4, post, by rw [hcs, hsuf, List.append_assoc],
      h1, a1, h2, a2, hdot, a3, h4, a4⟩

theorem findStringSubmatch_length (body : String) :
    (findStringSubmatch body).length = 0 ∨ (findStringSubmatch body).length = 4 := by
  by_cases h : findStringSubmatch body = []
  · left; simp [h]
  · right
    obtain ⟨pre, suf, -, hs⟩ := findSubmatchChars_found body.data h
    exact matchHere_length suf _ hs

/-! ## Facts about `main` -/

theorem pageLoop_fields (w : World) (fonds : Int) (L : Nat → List String) (n j : Nat)
    (r : MainResult)
    (hL : ∀ k, j ≤ k → k < j + n → (getIds w (pageURL fonds k)).outcome = Outcome.returned (L k)) :
    (pageLoop w fonds n j r).pagesFetched = r.pagesFetched ++ (List.range' j n).map Int.ofNat ∧
    (pageLoop w fonds n j r).submitted = r.submitted ++ (List.range' j n).flatMap L ∧
    (pageLoop w fonds n j r).ending = r.ending ∧
    (pageLoop w fonds n j r).barTotal = r.barTotal := by
  induction n generalizing j r with
  | zero => simp [pageLoop]
  | succ n ih =>
    have hj := hL j (le_refl j) (by omega)
    have ih2 := ih (j + 1)
      { log := r.log ++ (getIds w (pageURL fonds j)).log, printed := r.printed,
        madeDir := r.madeDir, pagesFetched := r.pagesFetched ++ [(j : Int)],
        submitted := r.submitted ++ L j, barTotal := r.barTotal, ending := r.ending }
      (fun k h1 h2 => hL k (by omega) (by omega))
    simp only [pageLoop, hj]
    have hcast : ((j : Int) + 1) = ((j + 1 : Nat) : Int) := by push_cast; rfl
    rw [hcast]
    obtain ⟨i1, i2, i3, i4⟩ := ih2
    refine ⟨?_, ?_, ?_, ?_⟩
    · rw [i1]; simp [List.range'_succ]
    · rw [i2]; simp [List.range'_succ]
    · rw [i3]
    · rw [i4]

/-! ## Facts about path resolution -/

/-- C1: whatever anchors a listing page holds, a list of identifiers that `getIds`
returns has no element twice and no empty string; and `getIds` does return one
whenever the page is fetched, its body is read and every selected link target
contains `=`. -/
theorem getIds_ids_nodup_nonempty (w : World) (url : String) :
    (∀ ids, (getIds w url).outcome = Outcome.returned ids → ids.Nodup ∧ "" ∉ ids) ∧
    (∀ res, w.httpGet url = HttpResult.ok res → res.readErr = none →
      (∀ a ∈ w.find res.body "a.opac_linkNero", '=' ∈ (a.attr "href").1.data) →
      ∃ ids, (getIds w url).outcome = Outcome.returned ids) := by
  constructor
  · intro ids h
    unfold getIds at h
    split at h
    · cases h
    · split at h
      · cases h
      · split at h
        · cases h
          exact ⟨nodup_unique _, fun hm => ((mem_unique _ _).mp hm).2 rfl⟩
        · cases h
  · intro res hget hread hall
    obtain ⟨toks, ht⟩ := eachAnchor_of_mem _ [] hall
    refine ⟨unique ([] ++ toks), ?_⟩
    simp only [getIds, hget, newDocumentFromReader, hread, ht]

/-- Witness of C1 on the first listing page of fonds 485, which repeats identifier 7
and has a link with an empty value. -/
theorem getIds_ids_nodup_nonempty_witness :
    (getIds site (pageURL 485 0)).outcome = Outcome.returned ["7", "8"] ∧
    (["7", "8"].Nodup ∧ "" ∉ ["7", "8"]) ∧
    (∃ ids, (getIds site (pageURL 485 0)).outcome = Outcome.returned ids) :=
  ⟨by decide,
   (getIds_ids_nodup_nonempty site (pageURL 485 0)).1 ["7", "8"] (by decide),
   (getIds_ids_nodup_nonempty site (pageURL 485 0)).2 { body := "first" } (by decide) rfl
     (by decide)⟩

/-- C2 (the code differs): when the detail page of a record cannot be fetched, or
the interstitial request is refused, the task logs the error and returns without
incrementing the progress bar; with an empty filename it does increment. -/
theorem downloadXML_failure_skips_increment :
    (downloadXML site "9" freshState).increments = 0 ∧
    (downloadXML site "9" freshState).log = ["dial tcp: connection refused"] ∧
    (downloadXML site "6" freshState).increments = 0 ∧
    (downloadXML site "6" freshState).log = ["dial tcp: connection refused"] ∧
    (downloadXML site "8" freshState).increments = 1 ∧
    (downloadXML site "8" freshState).log = ["error on item: 8"] := by
  refine ⟨by decide, by decide, by decide, by decide, by decide, by decide⟩

/-- C3 (the code differs): when the GET of a listing page fails, or its body cannot
be read, `getIds` logs the error and then panics on the nil response or document;
in `main` the crawl of fonds 486 ends at its broken second page, and the identifiers
of the third page are never submitted. -/
theorem getIds_failure_panics :
    (getIds site (pageURL 486 1)).outcome = Outcome.panicked ∧
    (getIds site (pageURL 486 1)).log = ["dial tcp: connection refused"] ∧
    (getIds brokenBodyWorld (pageURL 486 1)).outcome = Outcome.panicked ∧
    (getIds site (pageURL 486 2)).outcome = Outcome.returned ["8", "9"] ∧
    (main site 486).pagesFetched = [0, 1] ∧
    (main site 486).submitted = ["7", "8"] ∧
    (main site 486).ending = Ending.crashed := by
  refine ⟨by decide, by decide, by decide, by decide, by decide, by decide, by decide⟩

/-- C4 (the code differs): on the body `Pagina 3 di 12.5 (occorrenze 240)` the
pattern matches with the page-count token `12.5`, `Atoi` rejects that token, and
`getPages` returns 0 pages and 240 items without an error. -/
theorem getPages_fractional_page_count (url : String) :
    findStringSubmatch "Pagina 3 di 12.5 (occorrenze 240)" =
      ["Pagina 3 di 12.5 (occorrenze 240)", "3", "12.5", "240"] ∧
    atoi "12.5" = (0, some NumError.invalid) ∧
    getPages (servingWorld "Pagina 3 di 12.5 (occorrenze 240)") url = Except.ok (0, 240) := by
  refine ⟨by decide, by decide, rfl⟩

/-- C5: when the body fetched by `getPages` contains no match of the pagination
pattern, `getPages` returns the error `no results`; and whenever `getPages` returns
counts, the page was fetched and its body contains a match. -/
theorem getPages_error_unless_match (w : World) (url : String) :
    (∀ res, w.httpGet url = HttpResult.ok res → ¬ PaginationMatch res.body →
      getPages w url = Except.error "no results") ∧
    (∀ p i, getPages w url = Except.ok (p, i) →
      ∃ res, w.httpGet url = HttpResult.ok res ∧ PaginationMatch res.body) := by
  constructor
  · intro res hget hno
    have hnil : findStringSubmatch res.body = [] := by
      by_contra h
      exact hno ((paginationMatch_iff res.body).mpr h)
    simp [getPages, hget, hnil]
  · intro p i h
    unfold getPages at h
    split at h
    · cases h
    · rename_i res hget
      refine ⟨res, hget, ?_⟩
      rw [paginationMatch_iff]
      intro hnil
      simp [hnil] at h

/-- Witness of C5: a body without the pattern gives the error, a body with it gives
counts. -/
theorem getPages_error_unless_match_witness :
    getPages (servingWorld "<html>Pagina 3</html>") "u" = Except.error "no results" ∧
    (∃ res, (servingWorld "Pagina 3 di 12 (occorrenze 240)").httpGet "u" = HttpResult.ok res ∧
      PaginationMatch res.body) :=
  ⟨(getPages_error_unless_match (servingWorld "<html>Pagina 3</html>") "u").1
      { body := "<html>Pagina 3</html>" } rfl
      (fun h => (paginationMatch_iff "<html>Pagina 3</html>").mp h (by decide)),
   (getPages_error_unless_match (servingWorld "Pagina 3 di 12 (occorrenze 240)") "u").2
      12 240 rfl⟩

/-- C6 as stated fails: with the network down `getPages` fails for fonds 485 and
`main` ends through `os.Exit(0)`, so the exit status is zero. -/
theorem main_exit_status_zero_on_failure :
    getPages offlineWorld (fondoURL 485) = Except.error "dial tcp: connection refused" ∧
    (main offlineWorld 485).ending = Ending.exited 0 ∧
    ¬ (main offlineWorld 485).ending.status ≠ 0 :=
  ⟨rfl, by decide, by decide⟩

/-- C6, amended: when `getPages` fails for the listing URL of the fonds, `main` logs
the error and ends through `os.Exit` with status 0; `getIds` is called on no page,
no download task is submitted and no progress bar is started. -/
theorem main_getPages_failure (w : World) (fonds : Int) (err : String)
    (hf : fonds ≠ 0) (hfail : getPages w (fondoURL fonds) = Except.error err) :
    (main w fonds).log = [err] ∧
    (main w fonds).ending = Ending.exited 0 ∧
    (main w fonds).ending.status = 0 ∧
    (main w fonds).pagesFetched = [] ∧
    (main w fonds).submitted = [] ∧
    (main w fonds).barTotal = none := by
  simp [main, hf, hfail, Ending.status]

/-- Witness of the amended C6 on fonds 485 with the network down. -/
theorem main_getPages_failure_witness :
    (main offlineWorld 485).log = ["dial tcp: connection refused"] ∧
    (main offlineWorld 485).ending = Ending.exited 0 ∧
    (main offlineWorld 485).ending.status = 0 ∧
    (main offlineWorld 485).pagesFetched = [] ∧
    (main offlineWorld 485).submitted = [] ∧
    (main offlineWorld 485).barTotal = none :=
  main_getPages_failure offlineWorld 485 "dial tcp: connection refused" (by decide) rfl

/-- C8 as stated fails: from the link target `s.php?ID=7&p=2` the code takes `7&p`,
the text between the first and the second `=`, while the value after the first `=`
is `7&p=2`; and on a link target without `=` the indexing panics. -/
theorem idOfHref_not_value_after_first_eq :
    idOfHref "s.php?ID=7&p=2" = Outcome.returned "7&p" ∧
    valueAfterFirstEq "s.php?ID=7&p=2" = "7&p=2" ∧
    idOfHref "s.php?ID=7&p=2" ≠ Outcome.returned (valueAfterFirstEq "s.php?ID=7&p=2") ∧
    idOfHref "s.php" = Outcome.panicked :=
  ⟨by decide, by decide, by decide, by decide⟩

/-- C8, amended: for every link target that contains `=`, the identifier taken from
it is the text between the first `=` and the next `=` (or the end of the link
target); when the link target holds no second `=`, that is the whole value after the
first `=`. -/
theorem idOfHref_second_field (href : String) (h : '=' ∈ href.data) :
    idOfHref href =
      Outcome.returned (String.mk ((afterFirst '=' href.data).takeWhile (fun c => c ≠ '='))) ∧
    ('=' ∉ afterFirst '=' href.data →
      idOfHref href = Outcome.returned (valueAfterFirstEq href)) := by
  refine ⟨idOfHref_of_mem href h, ?_⟩
  intro h2
  rw [idOfHref_of_mem href h, valueAfterFirstEq]
  have : (afterFirst '=' href.data).takeWhile (fun c => c ≠ '=') = afterFirst '=' href.data := by
    rw [List.takeWhile_eq_self_iff]
    intro c hc
    have : c ≠ '=' := fun e => h2 (e ▸ hc)
    simpa using this
  rw [this]

/-- Witness of the amended C8 on a link target of the listing pages. -/
theorem idOfHref_second_field_witness :
    idOfHref "opac_SchedaScheda.php?ID=7" =
      Outcome.returned (String.mk ((afterFirst '=' "opac_SchedaScheda.php?ID=7".data).takeWhile
        (fun c => c ≠ '='))) ∧
    idOfHref "opac_SchedaScheda.php?ID=7" =
      Outcome.returned (valueAfterFirstEq "opac_SchedaScheda.php?ID=7") :=
  ⟨(idOfHref_second_field "opac_SchedaScheda.php?ID=7" (by decide)).1,
   (idOfHref_second_field "opac_SchedaScheda.php?ID=7" (by decide)).2 (by decide)⟩

/-- C9: when `getPages` gives the page count `p` and `getIds` returns the list `L k`
on every page `k` below `p`, `main` calls `getIds` on the pages `0, 1, ..., p - 1` in
this order and submits one task per identifier, page after page: the submitted
identifiers are `L 0 ++ L 1 ++ ... ++ L (p - 1)`, with no filtering across pages. -/
theorem main_submits_concatenation (w : World) (fonds p items : Int)
    (L : Nat → List String) (hf : fonds ≠ 0)
    (hp : getPages w (fondoURL fonds) = Except.ok (p, items))
    (hL : ∀ k : Nat, k < p.toNat →
      (getIds w (pageURL fonds k)).outcome = Outcome.returned (L k)) :
    (main w fonds).pagesFetched = (List.range p.toNat).map Int.ofNat ∧
    (main w fonds).submitted = (List.range p.toNat).flatMap L ∧
    (main w fonds).ending = Ending.finished ∧
    (main w fonds).barTotal = some items := by
  have h := pageLoop_fields w fonds L p.toNat 0
    { log := [], printed := ["# fonds: " ++ toString fonds ++ " — pages: " ++ toString p
        ++ " — items: " ++ toString items ++ "\n"],
      madeDir := w.dataDirMissing, pagesFetched := [], submitted := [],
      barTotal := some items, ending := Ending.finished }
    (fun k _ hk => hL k (by omega))
  simp only [main, hf, hp, if_false, List.range_eq_range']
  simpa using h

/-- Witness of C9 on fonds 485 of the sample site: two pages, `["7", "8"]` and
`["8", "9"]`; identifier 8 is on both and is submitted twice. -/
theorem main_submits_concatenation_witness :
    (main site 485).pagesFetched = (List.range (2 : Int).toNat).map Int.ofNat ∧
    (main site 485).submitted =
      (List.range (2 : Int).toNat).flatMap (fun k => if k = 0 then ["7", "8"] else ["8", "9"]) ∧
    (main site 485).ending = Ending.finished ∧
    (main site 485).barTotal = some 4 :=
  main_submits_concatenation site 485 2 4 (fun k => if k = 0 then ["7", "8"] else ["8", "9"])
    (by decide) rfl
    (by
      intro k hk
      have hk2 : k < 2 := hk
      interval_cases k
      · decide
      · decide)

/-- C10: `unique s` is the list of the non-empty elements of `s`, each at its first
occurrence and in the order of the first occurrences; so it holds exactly the
non-empty elements of `s`, it is a subsequence of `s`, its elements stand in the
order of their first positions in `s`, and no placeholder entry precedes them. -/
theorem unique_first_occurrences (s : List String) :
    unique s = firstOccurrences (s.filter (fun x => x ≠ "")) ∧
    (∀ x, x ∈ unique s ↔ (x ∈ s ∧ x ≠ "")) ∧
    (unique s).Sublist s ∧
    (unique s).Pairwise (fun x y => s.indexOf x < s.indexOf y) ∧
    (unique s).length ≤ s.length := by
  have hsub : (unique s).Sublist s := by
    rw [unique_eq]
    exact (sublist_firstOccurrences _).trans (List.filter_sublist _)
  exact ⟨unique_eq s, mem_unique s, hsub, pairwise_unique s, hsub.length_le⟩

end ManusDl
